import Mathlib

/-!
Shallow embedding of `ccopy.py` (CCopy 2.1.1), a bulk copy/move tool with an
update-mode skip policy, a benchmark grid over thread counts and buffer sizes,
a safe-configuration selection, optional move cleanup, and per-file outcome
counting.  File sizes are natural numbers, timestamps are exact rationals,
and the per-file filesystem interactions of `copy_file` are abstracted as a
record of individually failable responses, translated step by step from the
source.  Wall-clock benchmark measurements are abstracted as an environment
function giving the MB/s value observed for each grid combination.
-/

namespace CCopy

/-- `MAX_SAMPLE_BYTES = 1 * 1024**3` from the source configuration block. -/
def MAX_SAMPLE_BYTES : Nat := 1 * 1024 ^ 3

/-- `MAX_SAMPLE_FILES = 100` from the source configuration block. -/
def MAX_SAMPLE_FILES : Nat := 100

/-- A scanned file entry `(path, size)` as produced by `collect_files`;
paths are abstracted to numeric identifiers. -/
abbrev FileEnt := Nat × Nat

/-- Total byte size of a list of entries. -/
def sizeSum (l : List FileEnt) : Nat := (l.map Prod.snd).sum

/-- The loop of `sample_files`: walk the entries in order; stop before any
entry that would push the running total over `MAX_SAMPLE_BYTES`; append the
entry and stop once the sample holds `MAX_SAMPLE_FILES` files. -/
def sampleLoop : List FileEnt → List FileEnt → Nat → List FileEnt × Nat
  | [], sample, total => (sample, total)
  | e :: rest, sample, total =>
    if MAX_SAMPLE_BYTES < total + e.2 then (sample, total)
    else if MAX_SAMPLE_FILES ≤ (sample ++ [e]).length then (sample ++ [e], total + e.2)
    else sampleLoop rest (sample ++ [e]) (total + e.2)

/-- `sample_files(file_entries)` from the source: returns the sample and its
exact cumulative byte total, starting from an empty sample and zero total. -/
def sample_files (file_entries : List FileEnt) : List FileEnt × Nat :=
  sampleLoop file_entries [] 0

/-- Result of a successful `os.stat` call: size and timestamps in whole
seconds. -/
structure StatInfo where
  size : Nat
  mtime : ℤ
  atime : ℤ
deriving DecidableEq

/-- Abstract per-file filesystem behaviour for one `copy_file` call.  Each
field records whether the corresponding primitive succeeds and what it
returns; `none` for a stat means the call raises `OSError`. -/
structure FileTask where
  /-- the `size` argument, recorded at scan time -/
  size : Nat
  /-- bytes actually streamed on a successful full read of the source -/
  content : Nat
  /-- `dst.parent.mkdir(parents=True, exist_ok=True)` succeeds -/
  mkdirOk : Bool
  /-- result of `src.stat()`; `none` means the call raises -/
  srcStat : Option StatInfo
  /-- `dst.exists()` -/
  dstExists : Bool
  /-- result of `dst.stat()` during the update check; `none` means it raises -/
  dstStat : Option StatInfo
  /-- opening or streaming `src -> tmp` raises inside the `with` block -/
  readFails : Bool
  /-- bytes already streamed (and counted as progress) when the stream fails -/
  failBytes : Nat
  /-- `tmp.replace(dst)` succeeds -/
  renameOk : Bool
  /-- `os.utime(dst, ...)` succeeds -/
  utimeOk : Bool
  /-- the inline digest matches the re-read digest of the new destination -/
  verifyMatch : Bool
deriving DecidableEq

/-- Per-file outcome as documented in `copy_file`: 0=Failed, 1=Copied, 2=Skipped. -/
inductive Outcome
  | Failed
  | Copied
  | Skipped
deriving DecidableEq

/-- `done o` means `copy_file` returned the numeric code of `o`;
`uncaught` means an exception escaped `copy_file` into the caller. -/
inductive CopyResult
  | uncaught
  | done (out : Outcome)
deriving DecidableEq

/-- Observable side effects of one `copy_file` call. -/
structure CopyEffects where
  /-- bytes added to the shared progress bar under the lock -/
  progress : Nat
  /-- `tmp.replace(dst)` replaced the destination file -/
  dstWritten : Bool
  /-- a temporary file remains on disk after the call -/
  tmpLeft : Bool
deriving DecidableEq

/-- The `try` block of `copy_file`: stream `src` into the temporary file,
atomically rename it onto `dst`, propagate timestamps, then compare digests
when inline verification was requested.  Every exception raised here is
caught by the `except` clause, which removes the temporary file (if present)
and returns the Failed code. -/
def copyBody (t : FileTask) (do_verify : Bool) : CopyResult × CopyEffects :=
  if t.readFails then (CopyResult.done Outcome.Failed, ⟨t.failBytes, false, false⟩)
  else if !t.renameOk then (CopyResult.done Outcome.Failed, ⟨t.content, false, false⟩)
  else if !t.utimeOk then (CopyResult.done Outcome.Failed, ⟨t.content, true, false⟩)
  else if do_verify && !t.verifyMatch then (CopyResult.done Outcome.Failed, ⟨t.content, true, false⟩)
  else (CopyResult.done Outcome.Copied, ⟨t.content, true, false⟩)

/-- `copy_file(src, dst, size, buf, total_bar, do_verify, update_mode)` from
the source.  `dst.parent.mkdir` and `src.stat()` are executed before the
`try` block, so a failure in either escapes as `uncaught`; the update check
stats the destination, treating a raised `OSError` as not up to date; the
rest of the work happens inside `copyBody` under the `try`. -/
def copy_file (t : FileTask) (do_verify update_mode : Bool) : CopyResult × CopyEffects :=
  if !t.mkdirOk then (CopyResult.uncaught, ⟨0, false, false⟩)
  else
    match t.srcStat with
    | none => (CopyResult.uncaught, ⟨0, false, false⟩)
    | some srcS =>
      if update_mode && t.dstExists &&
          (match t.dstStat with
           | some dstS => decide (dstS.size = t.size) && decide (|srcS.mtime - dstS.mtime| < 2)
           | none => false)
      then (CopyResult.done Outcome.Skipped, ⟨t.size, false, false⟩)
      else copyBody t do_verify

/-- One benchmark grid entry `(threads, buffer_mb, mb_per_s)`. -/
abbrev BenchResult := Nat × Nat × ℚ

/-- The grid loop of `main`: `for t in (1, 2, 4): for b in (1, 2):` append
`(t, b, speed)`.  The measured throughput is abstracted as an environment
function of the combination. -/
def benchGrid (speed : Nat → Nat → ℚ) : List BenchResult :=
  [1, 2, 4].flatMap (fun t => [1, 2].map (fun b => (t, b, speed t b)))

/-- One comparison step of Python's `min(..., key=f)`: the running best is
replaced only when the new key is strictly smaller, so the first minimal
element encountered is kept. -/
def pyStep {α : Type} (f : α → Nat) (best y : α) : α :=
  if f y < f best then y else best

/-- Python's `min(results, key=f)` on a nonempty list. -/
def pyMinBy {α : Type} (f : α → Nat) : List α → Option α
  | [] => none
  | x :: xs => some (xs.foldl (pyStep f) x)

/-- The key of the safe selection in `main`: `abs(x[0]-2) + abs(x[1]-2)`. -/
def safeKey (r : BenchResult) : Nat :=
  ((r.1 : ℤ) - 2).natAbs + ((r.2.1 : ℤ) - 2).natAbs

/-- Modelled from the spec: the "fast" selection the specification describes,
the grid combination with maximum measured MB/s, ties broken by the first
encountered element.  The source code computes no such selection; this
definition exists only to compare the specification's words with the code. -/
def fastSpec : List BenchResult → Option BenchResult
  | [] => none
  | x :: xs => some (xs.foldl (fun best y => if best.2.2 < y.2.2 then y else best) x)

/-- Python's `str.strip()` on a character list: drop whitespace at both ends. -/
def strip (cs : List Char) : List Char :=
  ((cs.dropWhile Char.isWhitespace).reverse.dropWhile Char.isWhitespace).reverse

/-- `ask(prompt)` from the source: strip and lowercase the answer, accept
empty, `y` and `yes`; a `KeyboardInterrupt` (modelled as `none`) is `False`. -/
def ask (answer : Option (List Char)) : Bool :=
  match answer with
  | none => false
  | some s =>
    let a := (strip s).map Char.toLower
    a == [] || a == ['y'] || a == ['y', 'e', 's']

/-- The command-line flags of `main` after argument parsing and validation. -/
structure Args where
  dry_run : Bool
  benchmark : Bool
  ask : Bool
  auto : Bool
  verify : Bool
  verify_after : Bool
  move : Bool
  update : Bool
  threads : Nat
  buffer : Nat
deriving DecidableEq

/-- The auto-mode mutation in `main`: `args.threads, args.buffer =
safe[0], safe[1]` followed by `args.verify_after = True`. -/
def setAutoParams (a : Args) (t b : Nat) : Args :=
  ⟨a.dry_run, a.benchmark, a.ask, a.auto, a.verify, true, a.move, a.update, t, b⟩

/-- Apply the auto-mode parameter adoption when `args.auto` is set. -/
def autoAdopt (a : Args) (safe : Option BenchResult) : Args :=
  if a.auto then
    match safe with
    | some s => setAutoParams a s.1 s.2.1
    | none => a
  else a

/-- Placeholder element used with `List.getD` on copy results. -/
def defRes : CopyResult × CopyEffects := (CopyResult.uncaught, ⟨0, false, false⟩)

/-- The copy phase: one `copy_file` task per scanned file, called with the
inline-verify and update flags of the (possibly auto-mutated) arguments. -/
def copyPhase (a : Args) (files : List FileTask) : List (CopyResult × CopyEffects) :=
  files.map (fun t => copy_file t a.verify a.update)

/-- `list(ex.map(worker, files))` re-raises the first exception a worker
raised, so the run crashes when any task's result is `uncaught`. -/
def crashedOf (rs : List (CopyResult × CopyEffects)) : Bool :=
  rs.any (fun r => decide (r.1 = CopyResult.uncaught))

/-- Indices of the files appended to the `copied` list by `worker`,
exactly those whose `copy_file` result was the Copied code. -/
def copiedIdxOf (rs : List (CopyResult × CopyEffects)) : List Nat :=
  (List.range rs.length).filter
    (fun i => decide ((rs.getD i defRes).1 = CopyResult.done Outcome.Copied))

/-- Number of tasks with outcome `o` among the copy results. -/
def countOut (rs : List (CopyResult × CopyEffects)) (o : Outcome) : Nat :=
  (rs.filter (fun r => decide (r.1 = CopyResult.done o))).length

/-- The final `Copied / Skipped / Failed` report of `main`; it is never
reached when an uncaught worker exception crashed the run. -/
def reportOf (rs : List (CopyResult × CopyEffects)) : Option (Nat × Nat × Nat) :=
  if crashedOf rs then none
  else some (countOut rs Outcome.Copied, countOut rs Outcome.Skipped, countOut rs Outcome.Failed)

/-- The move phase of `main`: iterate over the `copied` pairs and unlink
every source; not reached after a crash, and skipped without `--move`. -/
def movePhase (a : Args) (crashed : Bool) (idx : List Nat) : List Nat :=
  if crashed then [] else if a.move then idx else []

/-- Observable trace of one `main` run over the phases the claims speak
about: the benchmark phase, the parameters the copy phase starts with, the
per-file copy results, the final report and the sources the move phase
unlinks. -/
structure MainTrace where
  /-- the benchmark block ran (`args.benchmark or args.auto`) -/
  benchRan : Bool
  /-- the grid results accumulated by the benchmark block -/
  benchResults : List BenchResult
  /-- the per-combination result lines were printed (`args.benchmark`) -/
  resultsPrinted : Bool
  /-- the safe recommendation printed by the benchmark block -/
  recommendedSafe : Option BenchResult
  /-- execution reached the copy phase -/
  copyEntered : Bool
  /-- the argument record in force when the copy phase starts -/
  copyParams : Args
  /-- per-file `copy_file` results in scan order -/
  copyResults : List (CopyResult × CopyEffects)
  /-- an uncaught worker exception aborted the run -/
  crashed : Bool
  /-- the final `(copied, skipped, failed)` report, if reached -/
  reportedCounts : Option (Nat × Nat × Nat)
  /-- indices of the source files unlinked by the move phase -/
  unlinked : List Nat
deriving DecidableEq

/-- Trace of the two early exits of `main` (`No files found` and dry run):
no benchmark, no copy, no report, nothing unlinked. -/
def emptyTrace (a : Args) : MainTrace :=
  ⟨false, [], false, none, false, a, [], false, none, []⟩

/-- The body of `main` from the benchmark block on, reached with a nonempty
scan and no dry run. -/
def afterScan (a : Args) (speed : Nat → Nat → ℚ) (files : List FileTask) : MainTrace :=
  let benchOn := a.benchmark || a.auto
  let results := if benchOn then benchGrid speed else []
  let safe := if benchOn then pyMinBy safeKey (benchGrid speed) else none
  let a' := autoAdopt a safe
  let rs := copyPhase a' files
  ⟨benchOn, results, a.benchmark, safe, true, a', rs, crashedOf rs, reportOf rs,
   movePhase a' (crashedOf rs) (copiedIdxOf rs)⟩

/-- `main` from the scan onward.  The interactive answer the environment
would give to `input()` is passed in but never consulted: `main` defines
`ask` and validates `--ask`, yet never calls the function. -/
def runMain (a : Args) (speed : Nat → Nat → ℚ) (_askAnswer : Option (List Char))
    (files : List FileTask) : MainTrace :=
  if files = [] then emptyTrace a
  else if a.dry_run then emptyTrace a
  else afterScan a speed files

/-- Throughput environment measuring zero everywhere. -/
def sp0 : Nat → Nat → ℚ := fun _ _ => 0

/-- Throughput environment whose maximum sits at threads 1, buffer 1. -/
def sp1fn : Nat → Nat → ℚ := fun t b =>
  match t, b with
  | 1, 1 => 5
  | 2, 2 => 3
  | _, _ => 1

/-- Throughput environment whose maximum sits at threads 4, buffer 2. -/
def sp2fn : Nat → Nat → ℚ := fun t b =>
  match t, b with
  | 4, 2 => 9
  | 2, 2 => 3
  | _, _ => 1

/-- A task whose every filesystem interaction succeeds. -/
def goodTask : FileTask :=
  ⟨10, 10, true, some ⟨10, 0, 0⟩, false, none, false, 0, true, true, true⟩

/-- A task whose `src.stat()` raises, e.g. the source vanished after the scan. -/
def statFailTask : FileTask :=
  ⟨10, 10, true, none, false, none, false, 0, true, true, true⟩

/-- A task whose destination parent directory cannot be created. -/
def mkdirFailTask : FileTask :=
  ⟨10, 10, false, none, false, none, false, 0, true, true, true⟩

/-- A task whose source cannot be opened or read: the unreadable-file case. -/
def readFailTask : FileTask :=
  ⟨10, 10, true, some ⟨10, 0, 0⟩, false, none, true, 0, true, true, true⟩

/-- A task that is up to date under update mode: equal sizes, mtimes 1s apart. -/
def skipTask : FileTask :=
  ⟨20, 20, true, some ⟨20, 50, 0⟩, true, some ⟨20, 51, 0⟩, false, 0, true, true, true⟩

/-- Another up-to-date task used for the update-mode witness. -/
def updTask : FileTask :=
  ⟨10, 10, true, some ⟨10, 100, 0⟩, true, some ⟨10, 101, 0⟩, false, 0, true, true, true⟩

/-- Plain run: no flags beyond the defaults. -/
def aPlain : Args := ⟨false, false, false, false, false, false, false, false, 1, 1⟩

/-- `--benchmark` alone. -/
def aBench : Args := ⟨false, true, false, false, false, false, false, false, 1, 1⟩

/-- `--benchmark --ask`. -/
def aBenchAsk : Args := ⟨false, true, true, false, false, false, false, false, 1, 1⟩

/-- `--auto`. -/
def aAuto : Args := ⟨false, false, false, true, false, false, false, false, 1, 1⟩

/-- `--move --update` (validation forces `verify_after` on). -/
def aMoveUpd : Args := ⟨false, false, false, false, false, true, true, true, 1, 1⟩

/-- Input list for the sampler witness: the first entry fills the byte cap
exactly, the second would cross it. -/
def sampleL0 : List FileEnt := [(0, 2 ^ 30), (1, 5)]

/-- On the fixed benchmark grid the safe selection is always the
`(threads 2, buffer 2)` entry, whatever the measured speeds: its key is the
unique zero of `safeKey` on the grid. -/
theorem safe_grid_eq (speed : Nat → Nat → ℚ) :
    pyMinBy safeKey (benchGrid speed) = some (2, 2, speed 2 2) := by
  simp [benchGrid, pyMinBy, pyStep, safeKey]

/-- The auto-mode mutation leaves the `move` flag unchanged. -/
theorem autoAdopt_move (a : Args) (s : Option BenchResult) :
    (autoAdopt a s).move = a.move := by
  unfold autoAdopt
  rcases s with _ | s' <;> by_cases h : a.auto <;> simp [h, setAutoParams]

/-- Every index in the `copied` list points at a task whose result was the
Copied code. -/
theorem copiedIdxOf_mem (rs : List (CopyResult × CopyEffects)) (i : Nat)
    (h : i ∈ copiedIdxOf rs) :
    (rs.getD i defRes).1 = CopyResult.done Outcome.Copied := by
  unfold copiedIdxOf at h
  rw [List.mem_filter] at h
  exact of_decide_eq_true h.2

/-- In every branch of `main`, the unlinked list is the move phase applied
to the copy-phase parameters, the crash flag and the `copied` indices. -/
theorem runMain_unlinked (a : Args) (speed : Nat → Nat → ℚ)
    (ans : Option (List Char)) (files : List FileTask) :
    (runMain a speed ans files).unlinked =
      movePhase (runMain a speed ans files).copyParams
        (runMain a speed ans files).crashed
        (copiedIdxOf (runMain a speed ans files).copyResults) := by
  unfold runMain
  by_cases h1 : files = []
  · simp [h1, emptyTrace, movePhase, copiedIdxOf]
  · by_cases h2 : a.dry_run
    · simp [h1, h2, emptyTrace, movePhase, copiedIdxOf]
    · simp only [h1, h2, if_false, if_neg]
      rfl

/-- In every branch of `main`, the copy-phase parameters carry the original
`move` flag. -/
theorem runMain_move (a : Args) (speed : Nat → Nat → ℚ)
    (ans : Option (List Char)) (files : List FileTask) :
    (runMain a speed ans files).copyParams.move = a.move := by
  unfold runMain
  by_cases h1 : files = []
  · simp [h1, emptyTrace]
  · by_cases h2 : a.dry_run
    · simp [h1, h2, emptyTrace]
    · simp only [h1, h2, if_false, if_neg]
      exact autoAdopt_move a _

/-- The scan of Python's `min`: the fold keeps the starting element when it
already has a minimal key; otherwise the result splits the scanned list with
every earlier element strictly larger and every later element no smaller, so
the first element of minimal key wins. -/
theorem foldl_pyStep_spec {α : Type} (f : α → Nat) (xs : List α) : ∀ b : α,
    (xs.foldl (pyStep f) b = b ∧ ∀ x ∈ xs, f b ≤ f x)
  ∨ (∃ l₁ l₂, xs = l₁ ++ xs.foldl (pyStep f) b :: l₂
      ∧ f (xs.foldl (pyStep f) b) < f b
      ∧ (∀ x ∈ l₁, f (xs.foldl (pyStep f) b) < f x)
      ∧ (∀ x ∈ l₂, f (xs.foldl (pyStep f) b) ≤ f x)) := by
  induction xs with
  | nil =>
    intro b
    left
    exact ⟨rfl, by simp⟩
  | cons y ys ih =>
    intro b
    by_cases h : f y < f b
    · have hstep : (y :: ys).foldl (pyStep f) b = ys.foldl (pyStep f) y := by
        simp [List.foldl_cons, pyStep, h]
      rw [hstep]
      rcases ih y with ⟨heq, hall⟩ | ⟨l₁, l₂, hsplit, hflt, hl₁, hl₂⟩
      · right
        refine ⟨[], ys, by simp [heq], by rw [heq]; exact h, by simp, ?_⟩
        intro x hx
        rw [heq]
        exact hall x hx
      · right
        refine ⟨y :: l₁, l₂, by rw [List.cons_append, ← hsplit], lt_trans hflt h, ?_, hl₂⟩
        intro x hx
        rcases List.mem_cons.mp hx with rfl | hx'
        · exact hflt
        · exact hl₁ x hx'
    · have hge : f b ≤ f y := le_of_not_lt h
      have hstep : (y :: ys).foldl (pyStep f) b = ys.foldl (pyStep f) b := by
        simp [List.foldl_cons, pyStep, h]
      rw [hstep]
      rcases ih b with ⟨heq, hall⟩ | ⟨l₁, l₂, hsplit, hflt, hl₁, hl₂⟩
      · left
        refine ⟨heq, ?_⟩
        intro x hx
        rcases List.mem_cons.mp hx with rfl | hx'
        · exact hge
        · exact hall x hx'
      · right
        refine ⟨y :: l₁, l₂, by rw [List.cons_append, ← hsplit], hflt, ?_, hl₂⟩
        intro x hx
        rcases List.mem_cons.mp hx with rfl | hx'
        · exact lt_of_lt_of_le hflt hge
        · exact hl₁ x hx'

/-- Python `min(..., key=f)` returns an element of minimal key, and every
element encountered before it has a strictly larger key: ties go to the
first-encountered element. -/
theorem pyMinBy_first_min {α : Type} (f : α → Nat) (l : List α) (m : α)
    (h : pyMinBy f l = some m) :
    ∃ L₁ L₂, l = L₁ ++ m :: L₂ ∧ (∀ x ∈ l, f m ≤ f x) ∧ ∀ x ∈ L₁, f m < f x := by
  match l with
  | [] => simp [pyMinBy] at h
  | x :: xs =>
    have hm : xs.foldl (pyStep f) x = m := by
      simpa [pyMinBy] using h
    rcases foldl_pyStep_spec f xs x with ⟨heq, hall⟩ | ⟨l₁, l₂, hsplit, hflt, hl₁, hl₂⟩
    · have hxm : x = m := by rw [← hm, heq]
      subst hxm
      refine ⟨[], xs, rfl, ?_, by simp⟩
      intro z hz
      rcases List.mem_cons.mp hz with rfl | hz'
      · exact le_refl _
      · exact hall z hz'
    · rw [hm] at hsplit hflt hl₁ hl₂
      refine ⟨x :: l₁, l₂, by rw [List.cons_append, ← hsplit], ?_, ?_⟩
      · intro z hz
        rcases List.mem_cons.mp hz with rfl | hz'
        · exact le_of_lt hflt
        · rw [hsplit] at hz'
          rcases List.mem_append.mp hz' with hz₁ | hz₂
          · exact le_of_lt (hl₁ z hz₁)
          · rcases List.mem_cons.mp hz₂ with rfl | hz₃
            · exact le_refl _
            · exact hl₂ z hz₃
      · intro z hz
        rcases List.mem_cons.mp hz with rfl | hz'
        · exact hflt
        · exact hl₁ z hz'

/-- Appending one entry adds its size to the running total. -/
theorem sizeSum_append (l : List FileEnt) (e : FileEnt) :
    sizeSum (l ++ [e]) = sizeSum l + e.2 := by
  simp [sizeSum]

/-- Invariant proof for the sampler loop: starting from a partial sample
whose total is its size sum, below both caps, the loop consumes a prefix of
the remaining entries, keeps the exact size sum, respects both caps, and
stops short of the input only at the count cap or right before an entry that
would cross the byte cap. -/
theorem sampleLoop_spec (entries : List FileEnt) : ∀ (s : List FileEnt) (t : Nat),
    t = sizeSum s → s.length < MAX_SAMPLE_FILES → t ≤ MAX_SAMPLE_BYTES →
    ∃ consumed rest,
      entries = consumed ++ rest ∧
      (sampleLoop entries s t).1 = s ++ consumed ∧
      (sampleLoop entries s t).2 = sizeSum (s ++ consumed) ∧
      (s ++ consumed).length ≤ MAX_SAMPLE_FILES ∧
      (sampleLoop entries s t).2 ≤ MAX_SAMPLE_BYTES ∧
      ∀ e r', rest = e :: r' → (s ++ consumed).length < MAX_SAMPLE_FILES →
        MAX_SAMPLE_BYTES < (sampleLoop entries s t).2 + e.2 := by
  induction entries with
  | nil =>
    intro s t ht hlen hcap
    refine ⟨[], [], by simp, by simp [sampleLoop], by simpa [sampleLoop] using ht, ?_, ?_, ?_⟩
    · simpa using le_of_lt hlen
    · simpa [sampleLoop] using hcap
    · intro e r' hr
      exact absurd hr (by simp)
  | cons e rest ih =>
    intro s t ht hlen hcap
    by_cases hb : MAX_SAMPLE_BYTES < t + e.2
    · have hloop : sampleLoop (e :: rest) s t = (s, t) := by
        simp [sampleLoop, hb]
      refine ⟨[], e :: rest, by simp, by simp [hloop], by simpa [hloop] using ht, ?_, ?_, ?_⟩
      · simpa using le_of_lt hlen
      · simpa [hloop] using hcap
      · intro e' r' hr _
        obtain ⟨rfl, _⟩ : e = e' ∧ rest = r' := List.cons.inj hr
        simpa [hloop] using hb
    · have hble : t + e.2 ≤ MAX_SAMPLE_BYTES := le_of_not_lt hb
      have hts : t + e.2 = sizeSum (s ++ [e]) := by rw [sizeSum_append, ht]
      by_cases hc : MAX_SAMPLE_FILES ≤ (s ++ [e]).length
      · have hloop : sampleLoop (e :: rest) s t = (s ++ [e], t + e.2) := by
          have hc' : MAX_SAMPLE_FILES ≤ s.length + 1 := by simpa using hc
          simp [sampleLoop, hb, hc']
        refine ⟨[e], rest, by simp, by simp [hloop], by simpa [hloop] using hts, ?_, ?_, ?_⟩
        · have : (s ++ [e]).length = s.length + 1 := by simp
          rw [this]
          exact Nat.succ_le_of_lt hlen
        · simpa [hloop] using hble
        · intro e' r' _ hlt
          exact absurd hlt (not_lt.mpr hc)
      · have hlen' : (s ++ [e]).length < MAX_SAMPLE_FILES := lt_of_not_ge hc
        have hloop : sampleLoop (e :: rest) s t = sampleLoop rest (s ++ [e]) (t + e.2) := by
          have hc' : ¬MAX_SAMPLE_FILES ≤ s.length + 1 := by simpa using hc
          simp [sampleLoop, hb, hc']
        obtain ⟨consumed, rest', h1, h2, h3, h4, h5, h6⟩ :=
          ih (s ++ [e]) (t + e.2) hts hlen' hble
        have hassoc : s ++ [e] ++ consumed = s ++ e :: consumed := by simp
        refine ⟨e :: consumed, rest', by simp [h1], ?_, ?_, ?_, ?_, ?_⟩
        · rw [hloop, h2, hassoc]
        · rw [hloop, h3, hassoc]
        · rw [← hassoc]
          exact h4
        · rw [hloop]
          exact h5
        · intro e' r' hr hlt
          rw [hloop]
          refine h6 e' r' hr ?_
          rw [hassoc]
          exact hlt

/-- Claim C1: the claim says every exception during parent-directory
creation, source stat, temporary write, rename, timestamp propagation and
inline verification is caught inside the task, yielding Failed without
aborting siblings.  The code contradicts this: `dst.parent.mkdir` and
`src.stat()` run before the `try` block of `copy_file`, so their exceptions
escape uncaught and crash the whole run, losing the sibling outcomes; only
the failures inside the `try` (here the unreadable-source case) are caught
as Failed. -/
theorem c1_precopy_exceptions_escape :
    (copy_file statFailTask false false).1 = CopyResult.uncaught ∧
    (copy_file mkdirFailTask false false).1 = CopyResult.uncaught ∧
    copy_file readFailTask false false = (CopyResult.done Outcome.Failed, ⟨0, false, false⟩) ∧
    (runMain aPlain sp0 none [goodTask, statFailTask, goodTask]).crashed = true ∧
    (runMain aPlain sp0 none [goodTask, statFailTask, goodTask]).reportedCounts = none :=
  ⟨rfl, rfl, rfl, rfl, rfl⟩

/-- Claim C3: the claim says benchmark mode without auto prints the results
and performs no copy.  The code contradicts it: after printing the grid and
the safe recommendation, `main` falls through into the copy phase, writes
the destination and reports copy counts. -/
theorem c3_benchmark_without_auto_still_copies :
    (runMain aBench sp0 none [goodTask]).benchRan = true ∧
    (runMain aBench sp0 none [goodTask]).resultsPrinted = true ∧
    (runMain aBench sp0 none [goodTask]).copyEntered = true ∧
    ((runMain aBench sp0 none [goodTask]).copyResults.getD 0 defRes).2.dstWritten = true ∧
    (runMain aBench sp0 none [goodTask]).reportedCounts = some (1, 0, 0) :=
  ⟨rfl, rfl, rfl, rfl, rfl⟩

/-- Claim C4: the claim says the interactive ask branch prompts once and a
negative or interrupted answer stops the run before the copy phase.  The
code contradicts it: `main` never calls `ask`, so the run is independent of
any answer the environment would give — even with `--benchmark --ask` and a
negative answer the copy phase runs and writes the destination.  The `ask`
function itself does map a negative or interrupted answer to `False`. -/
theorem c4_ask_branch_never_runs :
    runMain aBenchAsk sp0 (some ['n']) [goodTask]
      = runMain aBenchAsk sp0 (some ['y']) [goodTask] ∧
    ask (some ['n']) = false ∧
    ask none = false ∧
    (runMain aBenchAsk sp0 (some ['n']) [goodTask]).copyEntered = true ∧
    ((runMain aBenchAsk sp0 (some ['n']) [goodTask]).copyResults.getD 0 defRes).2.dstWritten
      = true :=
  ⟨rfl, by decide, rfl, rfl, rfl⟩

/-- Claim C6: the claim says every run gives each file exactly one outcome
and reports counts summing to the number of files.  The code contradicts it
in runs where a task raises before its `try` block (here an uncreatable
destination directory): the exception escapes, the run crashes, and no
counts are reported; a run without such an escape does report counts that
sum to the number of files. -/
theorem c6_outcome_counts_lost_on_uncaught_exception :
    (runMain aPlain sp0 none [goodTask, mkdirFailTask]).crashed = true ∧
    (runMain aPlain sp0 none [goodTask, mkdirFailTask]).reportedCounts = none ∧
    (runMain aPlain sp0 none [goodTask, goodTask]).reportedCounts = some (2, 0, 0) :=
  ⟨rfl, rfl, rfl⟩

/-- Claim C7: the sampler consumes a prefix of the input in order, returns
the exact cumulative byte total of that prefix, never exceeds the byte cap
or the 100-file cap, and stops short of the input only at the count cap or
because the next entry would cross the byte cap — that entry is excluded
entirely. -/
theorem c7_sampler_greedy (l : List FileEnt) :
    ∃ rest,
      l = (sample_files l).1 ++ rest ∧
      (sample_files l).2 = sizeSum (sample_files l).1 ∧
      (sample_files l).1.length ≤ MAX_SAMPLE_FILES ∧
      (sample_files l).2 ≤ MAX_SAMPLE_BYTES ∧
      ∀ e r', rest = e :: r' → (sample_files l).1.length < MAX_SAMPLE_FILES →
        MAX_SAMPLE_BYTES < (sample_files l).2 + e.2 := by
  obtain ⟨consumed, rest, h1, h2, h3, h4, h5, h6⟩ :=
    sampleLoop_spec l [] 0 rfl (by norm_num [MAX_SAMPLE_FILES]) (Nat.zero_le _)
  have hc : (sample_files l).1 = consumed := by simpa [sample_files] using h2
  refine ⟨rest, ?_, ?_, ?_, ?_, ?_⟩
  · rw [hc, h1]
  · rw [hc]
    simpa [sample_files] using h3
  · rw [hc]
    simpa using h4
  · simpa [sample_files] using h5
  · intro e r' hr hlt
    rw [hc] at hlt
    have h := h6 e r' hr (by simpa using hlt)
    simpa [sample_files] using h

/-- Witness for claim C7 at a concrete input: the first entry fills the
1 GiB cap exactly and is taken; the second would cross the cap and is
excluded entirely. -/
theorem c7_witness :
    sample_files sampleL0 = ([(0, 2 ^ 30)], 2 ^ 30) ∧
    (∃ rest,
      sampleL0 = (sample_files sampleL0).1 ++ rest ∧
      (sample_files sampleL0).2 = sizeSum (sample_files sampleL0).1 ∧
      (sample_files sampleL0).1.length ≤ MAX_SAMPLE_FILES ∧
      (sample_files sampleL0).2 ≤ MAX_SAMPLE_BYTES ∧
      ∀ e r', rest = e :: r' → (sample_files sampleL0).1.length < MAX_SAMPLE_FILES →
        MAX_SAMPLE_BYTES < (sample_files sampleL0).2 + e.2) :=
  ⟨rfl, c7_sampler_greedy sampleL0⟩

/-- Claim C10: over the fixed grid of threads in 1, 2, 4 crossed with buffer
sizes 1 and 2, the safe selection is always exactly the threads-2, buffer-2
entry, independent of every measured throughput value, because that grid
point has Manhattan distance zero from the target. -/
theorem c10_safe_is_always_threads2_buffer2 (speed speed' : Nat → Nat → ℚ) :
    pyMinBy safeKey (benchGrid speed) = some (2, 2, speed 2 2) ∧
    (pyMinBy safeKey (benchGrid speed)).map (fun r => (r.1, r.2.1)) =
      (pyMinBy safeKey (benchGrid speed')).map (fun r => (r.1, r.2.1)) ∧
    safeKey (2, 2, speed 2 2) = 0 := by
  refine ⟨safe_grid_eq speed, ?_, rfl⟩
  rw [safe_grid_eq, safe_grid_eq]
  rfl

/-- Witness for claim C10 at two concrete throughput environments with
different fastest combinations: the safe selection is (2, 2) either way. -/
theorem c10_witness :
    pyMinBy safeKey (benchGrid sp1fn) = some (2, 2, 3) ∧
    (pyMinBy safeKey (benchGrid sp1fn)).map (fun r => (r.1, r.2.1)) =
      (pyMinBy safeKey (benchGrid sp2fn)).map (fun r => (r.1, r.2.1)) ∧
    safeKey (2, 2, 3) = 0 :=
  c10_safe_is_always_threads2_buffer2 sp1fn sp2fn

/-- Claim C2: in a move-mode run that completes, the move phase unlinks
exactly the source indices recorded in the copied list, which holds
precisely the tasks whose outcome was Copied; the source of a Skipped or
Failed task is never unlinked. -/
theorem c2_move_unlinks_exactly_copied (a : Args) (speed : Nat → Nat → ℚ)
    (ans : Option (List Char)) (files : List FileTask)
    (hmove : a.move = true)
    (hok : (runMain a speed ans files).crashed = false) :
    ((runMain a speed ans files).unlinked
        = copiedIdxOf (runMain a speed ans files).copyResults) ∧
    (∀ i ∈ (runMain a speed ans files).unlinked,
        ((runMain a speed ans files).copyResults.getD i defRes).1
          = CopyResult.done Outcome.Copied) ∧
    (∀ i, ((runMain a speed ans files).copyResults.getD i defRes).1
            = CopyResult.done Outcome.Skipped ∨
          ((runMain a speed ans files).copyResults.getD i defRes).1
            = CopyResult.done Outcome.Failed →
          i ∉ (runMain a speed ans files).unlinked) := by
  have hu := runMain_unlinked a speed ans files
  have hm := runMain_move a speed ans files
  have h1 : (runMain a speed ans files).unlinked
      = copiedIdxOf (runMain a speed ans files).copyResults := by
    rw [hu]
    unfold movePhase
    rw [hok, hm, hmove]
    simp
  refine ⟨h1, ?_, ?_⟩
  · intro i hi
    rw [h1] at hi
    exact copiedIdxOf_mem _ i hi
  · intro i hout hi
    rw [h1] at hi
    have hcop := copiedIdxOf_mem _ i hi
    rcases hout with h | h <;> rw [hcop] at h <;> exact absurd h (by decide)

/-- Witness for claim C2: a move+update run with one Copied, one Skipped
and one Failed task unlinks exactly index 0, the Copied one. -/
theorem c2_witness :
    aMoveUpd.move = true ∧
    (runMain aMoveUpd sp0 none [goodTask, skipTask, readFailTask]).crashed = false ∧
    (runMain aMoveUpd sp0 none [goodTask, skipTask, readFailTask]).unlinked
      = copiedIdxOf (runMain aMoveUpd sp0 none [goodTask, skipTask, readFailTask]).copyResults ∧
    (runMain aMoveUpd sp0 none [goodTask, skipTask, readFailTask]).unlinked = [0] ∧
    ((runMain aMoveUpd sp0 none [goodTask, skipTask, readFailTask]).copyResults.getD 1
        defRes).1 = CopyResult.done Outcome.Skipped ∧
    (1 : Nat) ∉ (runMain aMoveUpd sp0 none [goodTask, skipTask, readFailTask]).unlinked ∧
    ((runMain aMoveUpd sp0 none [goodTask, skipTask, readFailTask]).copyResults.getD 2
        defRes).1 = CopyResult.done Outcome.Failed ∧
    (2 : Nat) ∉ (runMain aMoveUpd sp0 none [goodTask, skipTask, readFailTask]).unlinked := by
  refine ⟨rfl, rfl, ?_, by decide, by decide, ?_, by decide, ?_⟩
  · exact (c2_move_unlinks_exactly_copied aMoveUpd sp0 none
      [goodTask, skipTask, readFailTask] rfl rfl).1
  · exact (c2_move_unlinks_exactly_copied aMoveUpd sp0 none
      [goodTask, skipTask, readFailTask] rfl rfl).2.2 1 (Or.inl (by decide))
  · exact (c2_move_unlinks_exactly_copied aMoveUpd sp0 none
      [goodTask, skipTask, readFailTask] rfl rfl).2.2 2 (Or.inr (by decide))

/-- Claim C5: with update mode on and an existing destination, a matching
size together with a modification-time difference strictly below two
seconds yields outcome Skipped, advances the progress counter by the full
scanned size, replaces nothing and leaves no temporary file; a destination
stat that raises falls through to the normal copy body. -/
theorem c5_update_skip (t : FileTask) (srcS dstS : StatInfo) (dv : Bool)
    (hm : t.mkdirOk = true) (hs : t.srcStat = some srcS) (hd : t.dstExists = true) :
    (t.dstStat = some dstS → dstS.size = t.size → |srcS.mtime - dstS.mtime| < 2 →
       copy_file t dv true = (CopyResult.done Outcome.Skipped, ⟨t.size, false, false⟩)) ∧
    (t.dstStat = none → copy_file t dv true = copyBody t dv) := by
  constructor
  · intro hds hsize htime
    simp [copy_file, hm, hs, hd, hds, decide_eq_true hsize, decide_eq_true htime]
  · intro hds
    simp [copy_file, hm, hs, hd, hds]

/-- Witness for claim C5: sizes 10 = 10 and mtimes one second apart give
Skipped, full-size progress, no write. -/
theorem c5_witness :
    updTask.dstStat = some ⟨10, 101, 0⟩ ∧
    copy_file updTask true true = (CopyResult.done Outcome.Skipped, ⟨10, false, false⟩) := by
  refine ⟨rfl, ?_⟩
  exact (c5_update_skip updTask ⟨10, 100, 0⟩ ⟨10, 101, 0⟩ true rfl rfl rfl).1 rfl rfl (by decide)

/-- Claim C8: the safe configuration is the grid element of minimal
Manhattan distance from the threads-2, buffer-2 point, ties going to the
first grid entry; and in auto mode the copy phase starts with the safe
thread and buffer values and verify-after forced on. -/
theorem c8_safe_selection_and_auto_adoption :
    (∀ (speed : Nat → Nat → ℚ) (m : BenchResult),
        pyMinBy safeKey (benchGrid speed) = some m →
        ∃ L₁ L₂, benchGrid speed = L₁ ++ m :: L₂ ∧
          (∀ x ∈ benchGrid speed, safeKey m ≤ safeKey x) ∧
          (∀ x ∈ L₁, safeKey m < safeKey x)) ∧
    (∀ (a : Args) (speed : Nat → Nat → ℚ) (ans : Option (List Char))
        (files : List FileTask),
        a.auto = true → files ≠ [] → a.dry_run = false →
        ∃ s, pyMinBy safeKey (benchGrid speed) = some s ∧
          (runMain a speed ans files).copyParams.threads = s.1 ∧
          (runMain a speed ans files).copyParams.buffer = s.2.1 ∧
          (runMain a speed ans files).copyParams.verify_after = true) := by
  constructor
  · intro speed m hm
    exact pyMinBy_first_min safeKey _ m hm
  · intro a speed ans files hauto hne hdry
    have hrm : runMain a speed ans files = afterScan a speed files := by
      simp [runMain, hne, hdry]
    refine ⟨(2, 2, speed 2 2), safe_grid_eq speed, ?_, ?_, ?_⟩ <;>
      rw [hrm] <;>
      simp [afterScan, autoAdopt, hauto, safe_grid_eq, setAutoParams]

/-- Witness for claim C8: an auto run over one file adopts threads 2,
buffer 2 and forces verify-after on. -/
theorem c8_witness :
    (runMain aAuto sp1fn none [goodTask]).copyParams.threads = 2 ∧
    (runMain aAuto sp1fn none [goodTask]).copyParams.buffer = 2 ∧
    (runMain aAuto sp1fn none [goodTask]).copyParams.verify_after = true := by
  obtain ⟨s, hs, h1, h2, h3⟩ :=
    c8_safe_selection_and_auto_adoption.2 aAuto sp1fn none [goodTask] rfl (by simp) rfl
  rw [safe_grid_eq] at hs
  obtain rfl : (2, 2, sp1fn 2 2) = s := Option.some.inj hs
  exact ⟨h1, h2, h3⟩

/-- Counterexample to claim C9: under an environment whose maximum MB/s sits
at threads 4, buffer 2, the benchmark phase still recommends and adopts only
the (2, 2) combination — nothing the phase selects equals the
maximum-throughput combination, and two environments with different fastest
combinations produce the same selection. -/
theorem c9_no_fast_selection_counterexample :
    fastSpec (benchGrid sp2fn) = some (4, 2, 9) ∧
    (runMain aAuto sp2fn none [goodTask]).recommendedSafe = some (2, 2, 3) ∧
    (runMain aAuto sp2fn none [goodTask]).copyParams.threads = 2 ∧
    (runMain aAuto sp2fn none [goodTask]).copyParams.buffer = 2 ∧
    (runMain aAuto sp2fn none [goodTask]).recommendedSafe ≠ fastSpec (benchGrid sp2fn) ∧
    fastSpec (benchGrid sp1fn) = some (1, 1, 5) ∧
    (runMain aAuto sp1fn none [goodTask]).copyParams
      = (runMain aAuto sp2fn none [goodTask]).copyParams ∧
    (runMain aAuto sp1fn none [goodTask]).recommendedSafe
      = (runMain aAuto sp2fn none [goodTask]).recommendedSafe :=
  ⟨rfl, rfl, rfl, rfl, by decide, rfl, rfl, rfl⟩

/-- Claim C9 (amended): the benchmark phase computes no fast selection; its
recommendation and the parameters the copy phase starts with depend only on
the speed measured at the grid point (2, 2) — never on which combination has
the maximum MB/s — and whenever the phase runs it recommends exactly the
safe (2, 2) combination. -/
theorem c9_selection_ignores_max_throughput (a : Args) (sp sp' : Nat → Nat → ℚ)
    (ans ans' : Option (List Char)) (files : List FileTask)
    (h22 : sp 2 2 = sp' 2 2) :
    (runMain a sp ans files).recommendedSafe = (runMain a sp' ans' files).recommendedSafe ∧
    (runMain a sp ans files).copyParams = (runMain a sp' ans' files).copyParams ∧
    ((runMain a sp ans files).recommendedSafe = none ∨
     (runMain a sp ans files).recommendedSafe = some (2, 2, sp 2 2)) := by
  by_cases h1 : files = []
  · simp [runMain, h1, emptyTrace]
  · by_cases h2 : a.dry_run
    · simp [runMain, h1, h2, emptyTrace]
    · have e1 : runMain a sp ans files = afterScan a sp files := by
        simp [runMain, h1, h2]
      have e2 : runMain a sp' ans' files = afterScan a sp' files := by
        simp [runMain, h1, h2]
      rw [e1, e2]
      by_cases hb : (a.benchmark || a.auto) = true
      · refine ⟨?_, ?_, Or.inr ?_⟩ <;>
          simp [afterScan, hb, safe_grid_eq, h22, autoAdopt]
      · have hb' : (a.benchmark || a.auto) = false := by simpa using hb
        refine ⟨?_, ?_, Or.inl ?_⟩ <;>
          simp [afterScan, hb', autoAdopt]

/-- Witness for claim C9: two environments agreeing at (2, 2) but with
different fastest combinations give identical recommendation and identical
copy-phase parameters. -/
theorem c9_witness :
    sp1fn 2 2 = sp2fn 2 2 ∧
    (runMain aBench sp1fn none [goodTask]).recommendedSafe
      = (runMain aBench sp2fn none [goodTask]).recommendedSafe ∧
    (runMain aBench sp1fn none [goodTask]).copyParams
      = (runMain aBench sp2fn none [goodTask]).copyParams :=
  ⟨rfl,
   (c9_selection_ignores_max_throughput aBench sp1fn sp2fn none none [goodTask] rfl).1,
   (c9_selection_ignores_max_throughput aBench sp1fn sp2fn none none [goodTask] rfl).2.1⟩

end CCopy
